import Mathlib

set_option autoImplicit false

/-!
Shallow embedding of the FinanceTracker budget-alert / bill-reminder core
(src/server/mongo-routes.ts, src/server/email-reminders.ts concatenation
holding budget-alerts and the drizzle storage, src/server/models.ts,
src/server/email.ts), together with proofs settling the frozen claims.

Numbers handled by the JavaScript code are modelled as exact rationals
extended with the IEEE special values positive infinity, negative infinity
and NaN (`JsNum`), so that the behaviour of `spent / budget.amount` on a
zero budget amount is captured faithfully: JavaScript division never
throws, it produces Infinity or NaN.  Rounding error of binary floating
point is not modelled; every claim under test is stated by the spec in
exact arithmetic.
-/

namespace FinanceTracker

/-- IEEE-style JavaScript number: a finite rational, an infinity, or NaN. -/
inductive JsNum where
  | num (q : ℚ)
  | posInf
  | negInf
  | nan
deriving DecidableEq

/-- JavaScript `/` on numbers.  Division by zero yields an infinity (or NaN
for `0 / 0`); it never throws. -/
def jsDiv : JsNum → JsNum → JsNum
  | .nan, _ => .nan
  | _, .nan => .nan
  | .num a, .num b =>
      if b = 0 then
        if a = 0 then .nan else if 0 < a then .posInf else .negInf
      else .num (a / b)
  | .num _, .posInf => .num 0
  | .num _, .negInf => .num 0
  | .posInf, .num b => if 0 ≤ b then .posInf else .negInf
  | .negInf, .num b => if 0 ≤ b then .negInf else .posInf
  | .posInf, .posInf => .nan
  | .posInf, .negInf => .nan
  | .negInf, .posInf => .nan
  | .negInf, .negInf => .nan

/-- JavaScript `*` on numbers. -/
def jsMul : JsNum → JsNum → JsNum
  | .nan, _ => .nan
  | _, .nan => .nan
  | .num a, .num b => .num (a * b)
  | .num a, .posInf => if a = 0 then .nan else if 0 < a then .posInf else .negInf
  | .num a, .negInf => if a = 0 then .nan else if 0 < a then .negInf else .posInf
  | .posInf, .num b => if b = 0 then .nan else if 0 < b then .posInf else .negInf
  | .negInf, .num b => if b = 0 then .nan else if 0 < b then .negInf else .posInf
  | .posInf, .posInf => .posInf
  | .posInf, .negInf => .negInf
  | .negInf, .posInf => .negInf
  | .negInf, .negInf => .posInf

/-- `Math.round` on a finite value: round half toward positive infinity. -/
def jsRoundQ (q : ℚ) : ℤ := ⌊q + 1 / 2⌋

/-- JavaScript `Math.round`; the identity on infinities and NaN. -/
def jsRound : JsNum → JsNum
  | .num q => .num (jsRoundQ q)
  | .posInf => .posInf
  | .negInf => .negInf
  | .nan => .nan

/-- JavaScript `>=` between a number and a finite threshold.  Any
comparison with NaN is false. -/
def jsGeQ : JsNum → ℚ → Bool
  | .num q, t => decide (t ≤ q)
  | .posInf, _ => true
  | .negInf, _ => false
  | .nan, _ => false

/-- A transaction document as the budget-alert code reads it
(models.ts `TransactionSchema`): `amount` a number, `isIncome` a boolean,
`categoryId` an optional object id rendered here as a `String`. -/
structure Txn where
  amount : ℚ
  isIncome : Bool
  categoryId : Option String
deriving DecidableEq

/-- A category document: object id and display name. -/
structure CategoryDoc where
  id : String
  name : String
deriving DecidableEq

/-- A budget document (models.ts `BudgetSchema`): category reference,
amount and alert threshold percentage. -/
structure BudgetDoc where
  categoryId : String
  amount : ℚ
  alertThreshold : ℚ
deriving DecidableEq

/-- The alert record emitted by the budget-alert evaluator. -/
structure AlertRec where
  categoryId : String
  categoryName : String
  amount : ℚ
  spent : ℚ
  percentSpent : JsNum
  isExceeded : Bool
deriving DecidableEq

/-- A JavaScript `Map` keyed by strings, modelled as an insertion-ordered
association list. -/
abbrev JsMap (α : Type) := List (String × α)

/-- `Map.prototype.get`: the value at the first (and only) occurrence of
the key. -/
def mapGet {α : Type} : JsMap α → String → Option α
  | [], _ => none
  | (k, v) :: rest, key => if k = key then some v else mapGet rest key

/-- `Map.prototype.set`: overwrite the value at an existing key in place,
or append a new entry. -/
def mapSet {α : Type} : JsMap α → String → α → JsMap α
  | [], key, v => [(key, v)]
  | (k, w) :: rest, key, v =>
      if k = key then (k, v) :: rest else (k, w) :: mapSet rest key v

/-- One iteration of the category-spending loop
(mongo-routes.ts lines 566-572, email-reminders.ts budget-alerts part
lines 228-233): non-income transactions with a category add their amount
to the running per-category total. -/
def spendStep (m : JsMap ℚ) (t : Txn) : JsMap ℚ :=
  match t.categoryId with
  | some c => if t.isIncome then m else mapSet m c ((mapGet m c).getD 0 + t.amount)
  | none => m

/-- The Category Spend Aggregator: the `categorySpending` map built by
folding `spendStep` over the user's transactions, exactly as the source
loop does starting from an empty `Map`. -/
def categorySpending (ts : List Txn) : JsMap ℚ := ts.foldl spendStep []

/-- The amount the evaluator later reads for a category:
`categorySpending.get(categoryId) || 0`. -/
def spendingOf (ts : List Txn) (c : String) : ℚ :=
  (mapGet (categorySpending ts) c).getD 0

/-- The per-category total the spec describes: the sum of the amounts of
exactly the non-income transactions carrying this category. -/
def specCategorySum (ts : List Txn) (c : String) : ℚ :=
  ((ts.filter (fun t => t.categoryId == some c && !t.isIncome)).map Txn.amount).sum

/-- The transactions the aggregator ignores: income ones and ones without
a category reference. -/
def ignoredSum (ts : List Txn) : ℚ :=
  ((ts.filter (fun t => t.isIncome || t.categoryId.isNone)).map Txn.amount).sum

/-- Sum of all values stored in the per-category map. -/
def valuesSum (m : JsMap ℚ) : ℚ := (m.map Prod.snd).sum

theorem mapGet_mapSet_self {α : Type} (m : JsMap α) (k : String) (v : α) :
    mapGet (mapSet m k v) k = some v := by
  induction m with
  | nil => simp [mapGet, mapSet]
  | cons p rest ih =>
      obtain ⟨k1, v1⟩ := p
      by_cases h : k1 = k
      · simp [mapGet, mapSet, h]
      · simp [mapGet, mapSet, h, ih]

theorem mapGet_mapSet_ne {α : Type} (m : JsMap α) (k key : String) (v : α)
    (h : k ≠ key) : mapGet (mapSet m k v) key = mapGet m key := by
  induction m with
  | nil => simp [mapGet, mapSet, h]
  | cons p rest ih =>
      obtain ⟨k1, v1⟩ := p
      by_cases h1 : k1 = k
      · subst h1
        simp [mapGet, mapSet, h]
      · by_cases h2 : k1 = key
        · simp [mapGet, mapSet, h1, h2, Ne.symm h]
        · simp [mapGet, mapSet, h1, h2, ih]

theorem valuesSum_mapSet (m : JsMap ℚ) (k : String) (v : ℚ) :
    valuesSum (mapSet m k v) = valuesSum m - (mapGet m k).getD 0 + v := by
  induction m with
  | nil => simp [valuesSum, mapGet, mapSet]
  | cons p rest ih =>
      obtain ⟨k1, v1⟩ := p
      by_cases h : k1 = k
      · simp [valuesSum, mapGet, mapSet, h]
        ring
      · simp only [valuesSum, mapGet, mapSet, if_neg h, List.map_cons, List.sum_cons] at *
        rw [ih]
        ring

theorem spendingOf_foldl (ts : List Txn) :
    ∀ (m : JsMap ℚ) (c : String),
      (mapGet (ts.foldl spendStep m) c).getD 0 =
        (mapGet m c).getD 0 + specCategorySum ts c := by
  induction ts with
  | nil => intro m c; simp [specCategorySum]
  | cons t rest ih =>
      intro m c
      rw [List.foldl_cons, ih]
      rcases ht : t.categoryId with _ | c1
      · simp [spendStep, ht, specCategorySum]
      · by_cases hInc : t.isIncome
        · simp [spendStep, ht, hInc, specCategorySum]
        · by_cases hc : c1 = c
          · subst hc
            simp [spendStep, ht, hInc, specCategorySum, mapGet_mapSet_self]
            ring
          · simp [spendStep, ht, hInc, specCategorySum,
              mapGet_mapSet_ne _ _ _ _ hc, hc]

theorem foldl_spendStep_filter (ts : List Txn) :
    ∀ (m : JsMap ℚ),
      ts.foldl spendStep m =
        (ts.filter (fun t => t.categoryId.isSome && !t.isIncome)).foldl spendStep m := by
  induction ts with
  | nil => intro m; rfl
  | cons t rest ih =>
      intro m
      rcases ht : t.categoryId with _ | c1
      · simp [spendStep, ht, ih]
      · by_cases hInc : t.isIncome
        · simp [spendStep, ht, hInc, ih]
        · simp [spendStep, ht, hInc, ih]

theorem valuesSum_foldl (ts : List Txn) :
    ∀ (m : JsMap ℚ),
      valuesSum (ts.foldl spendStep m) =
        valuesSum m + ((ts.filter (fun t => t.categoryId.isSome && !t.isIncome)).map Txn.amount).sum := by
  induction ts with
  | nil => intro m; simp
  | cons t rest ih =>
      intro m
      rw [List.foldl_cons, ih]
      rcases ht : t.categoryId with _ | c1
      · simp [spendStep, ht]
      · by_cases hInc : t.isIncome
        · simp [spendStep, ht, hInc]
        · simp [spendStep, ht, hInc, valuesSum_mapSet]
          ring

/-- C5: the Category Spend Aggregator maps every category to the sum of
the amounts of exactly the non-income transactions referencing it, and
income or uncategorized transactions contribute nothing (dropping them
leaves the aggregate unchanged).  Side-effect freedom on the input is
inherent: `categorySpending` is a pure function of the transaction list. -/
theorem categorySpending_correct (ts : List Txn) (c : String) :
    spendingOf ts c = specCategorySum ts c ∧
    categorySpending ts =
      categorySpending (ts.filter (fun t => t.categoryId.isSome && !t.isIncome)) := by
  constructor
  · have h := spendingOf_foldl ts [] c
    simpa [spendingOf, categorySpending, mapGet] using h
  · have h := foldl_spendStep_filter ts []
    simpa [categorySpending, List.filter_filter] using h

/-- C6: the aggregator's total across all categories plus the total of
the ignored (income or uncategorized) transactions equals the sum of all
transaction amounts. -/
theorem relevant_add_ignored (ts : List Txn) :
    ((ts.filter (fun t => t.categoryId.isSome && !t.isIncome)).map Txn.amount).sum
      + ((ts.filter (fun t => t.isIncome || t.categoryId.isNone)).map Txn.amount).sum
      = (ts.map Txn.amount).sum := by
  induction ts with
  | nil => simp
  | cons t rest ih =>
      rcases ht : t.categoryId with _ | c1 <;> by_cases hInc : t.isIncome <;>
        simp [List.filter_cons, ht, hInc] <;> linarith

theorem categorySpending_partition (ts : List Txn) :
    valuesSum (categorySpending ts) + ignoredSum ts = (ts.map Txn.amount).sum := by
  rw [categorySpending, valuesSum_foldl ts []]
  have h := relevant_add_ignored ts
  simp only [valuesSum, List.map_nil, List.sum_nil, zero_add, ignoredSum]
  linarith

/-- JavaScript string fallback `x || fb`: `undefined` (absent key) and the
empty string are falsy, so both fall back. -/
def jsOrString (x : Option String) (fb : String) : String :=
  match x with
  | some s => if s = "" then fb else s
  | none => fb

/-- The category-name map of GET /api/budgets/alerts
(mongo-routes.ts line 561): a `Map` built from `(id, name)` entries. -/
def categoryNameMap (cats : List CategoryDoc) : JsMap String :=
  cats.foldl (fun m c => mapSet m c.id c.name) []

/-- Loop body of GET /api/budgets/alerts (mongo-routes.ts lines 577-596):
evaluate one budget against the spending map and the category-name map,
returning the pushed alert record, if any.  The budget is never skipped;
a missing category name falls back to the placeholder string. -/
def evalBudget (spending : JsMap ℚ) (categoryMap : JsMap String)
    (budget : BudgetDoc) : Option AlertRec :=
  let categoryId := budget.categoryId
  let spent := (mapGet spending categoryId).getD 0
  let percentSpent := jsRound (jsMul (jsDiv (.num spent) (.num budget.amount)) (.num 100))
  let isExceeded := decide (budget.amount < spent)
  let isApproaching := jsGeQ percentSpent budget.alertThreshold && !isExceeded
  if isExceeded || isApproaching then
    some ⟨categoryId,
      jsOrString (mapGet categoryMap categoryId) ("Category " ++ categoryId),
      budget.amount, spent, percentSpent, isExceeded⟩
  else none

/-- The GET /api/budgets/alerts response body: every budget evaluated in
input order against the aggregated spending. -/
def budgetAlertsRoute (budgets : List BudgetDoc) (transactions : List Txn)
    (categories : List CategoryDoc) : List AlertRec :=
  budgets.filterMap
    (evalBudget (categorySpending transactions) (categoryNameMap categories))

/-- Modelled from the spec wording of step 4.2.3: the percentage as the
spec defines it, `round(100 * spend / amount)`, an exact integer. -/
def specPercent (spent amount : ℚ) : ℚ := (jsRoundQ (100 * spent / amount) : ℤ)

/-- Modelled from the spec wording of 4.2 steps 3-5 for a positive
amount: percent from `specPercent`, `isExceeded = spend > amount`,
`isApproaching = percent >= threshold and not exceeded`, record emitted
iff exceeded or approaching. -/
def specBudgetEval (spending : JsMap ℚ) (categoryMap : JsMap String)
    (budget : BudgetDoc) : Option AlertRec :=
  let spent := (mapGet spending budget.categoryId).getD 0
  let percent := specPercent spent budget.amount
  let isExceeded := decide (budget.amount < spent)
  let isApproaching := decide (budget.alertThreshold ≤ percent) && !isExceeded
  if isExceeded || isApproaching then
    some ⟨budget.categoryId,
      jsOrString (mapGet categoryMap budget.categoryId) ("Category " ++ budget.categoryId),
      budget.amount, spent, .num percent, isExceeded⟩
  else none

theorem jsRound_div_pos (spent amount : ℚ) (h : 0 < amount) :
    jsRound (jsMul (jsDiv (.num spent) (.num amount)) (.num 100)) =
      .num (specPercent spent amount) := by
  have hne : amount ≠ 0 := ne_of_gt h
  simp only [jsDiv, jsMul, jsRound, hne, if_false, specPercent]
  have harith : spent / amount * 100 = 100 * spent / amount := by ring
  rw [harith]

/-- C3: for a budget with positive amount the route evaluator agrees
exactly with the spec algorithm (percent `round(100 * spend / amount)`,
exceeded iff `spend > amount`, approaching iff percent reaches the
threshold without exceeding, record emitted iff one of the two), and the
spec's three concrete examples at amount 100, threshold 80 hold on the
full route. -/
theorem budgetAlerts_pos_amount (sp : JsMap ℚ) (cm : JsMap String)
    (b : BudgetDoc) (h : 0 < b.amount) :
    evalBudget sp cm b = specBudgetEval sp cm b ∧
    budgetAlertsRoute [⟨"g1", 100, 80⟩] [⟨79, false, some "g1"⟩]
        [⟨"g1", "Groceries"⟩] = [] ∧
    budgetAlertsRoute [⟨"g1", 100, 80⟩] [⟨80, false, some "g1"⟩]
        [⟨"g1", "Groceries"⟩]
      = [⟨"g1", "Groceries", 100, 80, .num 80, false⟩] ∧
    budgetAlertsRoute [⟨"g1", 100, 80⟩] [⟨101, false, some "g1"⟩]
        [⟨"g1", "Groceries"⟩]
      = [⟨"g1", "Groceries", 100, 101, .num 101, true⟩] := by
  refine ⟨?_, ?_, ?_, ?_⟩
  · simp only [evalBudget, specBudgetEval, jsRound_div_pos _ _ h, jsGeQ]
  all_goals
    norm_num [budgetAlertsRoute, evalBudget, categorySpending, spendStep,
      categoryNameMap, mapGet, mapSet, jsDiv, jsMul, jsRound, jsRoundQ, jsGeQ,
      jsOrString, List.filterMap_cons]
  all_goals
    intro hs
    exact absurd hs (by decide)

/-- Closed instance of `budgetAlerts_pos_amount` discharging its
hypothesis at amount 100. -/
theorem budgetAlerts_pos_amount_witness :
    (0 : ℚ) < 100 ∧
    (evalBudget [("g1", 80)] [("g1", "Groceries")] ⟨"g1", 100, 80⟩ =
        specBudgetEval [("g1", 80)] [("g1", "Groceries")] ⟨"g1", 100, 80⟩ ∧
      budgetAlertsRoute [⟨"g1", 100, 80⟩] [⟨79, false, some "g1"⟩]
          [⟨"g1", "Groceries"⟩] = [] ∧
      budgetAlertsRoute [⟨"g1", 100, 80⟩] [⟨80, false, some "g1"⟩]
          [⟨"g1", "Groceries"⟩]
        = [⟨"g1", "Groceries", 100, 80, .num 80, false⟩] ∧
      budgetAlertsRoute [⟨"g1", 100, 80⟩] [⟨101, false, some "g1"⟩]
          [⟨"g1", "Groceries"⟩]
        = [⟨"g1", "Groceries", 100, 101, .num 101, true⟩]) :=
  ⟨by norm_num,
    budgetAlerts_pos_amount [("g1", 80)] [("g1", "Groceries")] ⟨"g1", 100, 80⟩
      (by norm_num)⟩

/-- C1 as stated is false on the code: at budget amount 0 and spend 5 the
route emits an alert whose `percentSpent` is Infinity (JavaScript
`Math.round((5 / 0) * 100)`), not 0. -/
theorem budgetAlerts_zero_amount_cex :
    budgetAlertsRoute [⟨"c0", 0, 80⟩] [⟨5, false, some "c0"⟩] [⟨"c0", "Misc"⟩]
      = [⟨"c0", "Misc", 0, 5, JsNum.posInf, true⟩]
    ∧ JsNum.posInf ≠ JsNum.num 0 := by
  constructor
  · norm_num [budgetAlertsRoute, evalBudget, categorySpending, spendStep,
      categoryNameMap, mapGet, mapSet, jsDiv, jsMul, jsRound, jsRoundQ, jsGeQ,
      jsOrString, List.filterMap_cons]
    intro hs
    exact absurd hs (by decide)
  · decide

/-- C1 (amended): a zero-amount budget never raises a divide-by-zero
error (JavaScript division is total, which the totality of `jsDiv`
renders) and `isExceeded = (spend > 0)` as claimed, but `percentSpent` is
Infinity for positive spend — so at spend 5 the alert has
`isExceeded = true` and `percentSpent` Infinity, not 0 — and for
zero (NaN percent) or negative spend no alert is emitted. -/
theorem budgetAlerts_zero_amount (sp : JsMap ℚ) (cm : JsMap String)
    (b : BudgetDoc) (h : b.amount = 0) :
    (0 < (mapGet sp b.categoryId).getD 0 →
      evalBudget sp cm b = some ⟨b.categoryId,
        jsOrString (mapGet cm b.categoryId) ("Category " ++ b.categoryId),
        b.amount, (mapGet sp b.categoryId).getD 0, JsNum.posInf, true⟩)
    ∧ ((mapGet sp b.categoryId).getD 0 = 0 → evalBudget sp cm b = none)
    ∧ ((mapGet sp b.categoryId).getD 0 < 0 → evalBudget sp cm b = none) := by
  refine ⟨fun hpos => ?_, fun hzero => ?_, fun hneg => ?_⟩
  · simp [evalBudget, h, jsDiv, jsMul, jsRound, jsGeQ, ne_of_gt hpos, hpos]
  · simp [evalBudget, h, hzero, jsDiv, jsMul, jsRound, jsGeQ]
  · simp [evalBudget, h, jsDiv, jsMul, jsRound, jsGeQ, ne_of_lt hneg, hneg,
      not_lt_of_lt hneg, asymm hneg]

/-- Closed instance of `budgetAlerts_zero_amount` discharging its
hypothesis at the spec's own numbers (amount 0, spend 5). -/
theorem budgetAlerts_zero_amount_witness :
    (0 : ℚ) < (mapGet [("c0", (5 : ℚ))] "c0").getD 0 ∧
    evalBudget [("c0", (5 : ℚ))] [("c0", "Misc")] ⟨"c0", 0, 80⟩
      = some ⟨"c0", jsOrString (mapGet [("c0", "Misc")] "c0") ("Category " ++ "c0"),
          0, (mapGet [("c0", (5 : ℚ))] "c0").getD 0, JsNum.posInf, true⟩ := by
  have hpos : 0 < (mapGet [("c0", (5 : ℚ))] "c0").getD 0 := by norm_num [mapGet]
  exact ⟨hpos,
    (budgetAlerts_zero_amount [("c0", 5)] [("c0", "Misc")] ⟨"c0", 0, 80⟩ rfl).1 hpos⟩

/-- C2 as stated is false on the code: a budget whose category was
deleted (category list empty) still emits an alert record — with the
placeholder name — rather than being skipped. -/
theorem budgetAlerts_deleted_category_cex :
    budgetAlertsRoute [⟨"c9", 100, 80⟩] [⟨200, false, some "c9"⟩] [] ≠ []
    ∧ budgetAlertsRoute [⟨"c9", 100, 80⟩] [⟨200, false, some "c9"⟩] []
      = [⟨"c9", "Category c9", 100, 200, JsNum.num 200, true⟩] := by
  have h : budgetAlertsRoute [⟨"c9", 100, 80⟩] [⟨200, false, some "c9"⟩] []
      = [⟨"c9", "Category c9", 100, 200, JsNum.num 200, true⟩] := by
    norm_num [budgetAlertsRoute, evalBudget, categorySpending, spendStep,
      categoryNameMap, mapGet, mapSet, jsDiv, jsMul, jsRound, jsRoundQ, jsGeQ,
      jsOrString, List.filterMap_cons]
    decide
  exact ⟨by rw [h]; exact fun hc => List.noConfusion hc, h⟩

/-- C2 (amended): a budget whose referenced category is absent from the
category list is NOT skipped: whether an alert is emitted never depends
on the category list, and when the category is missing the emitted
record carries the placeholder name `Category <id>`. -/
theorem budgetAlerts_deleted_category (sp : JsMap ℚ) (cm cm2 : JsMap String)
    (b : BudgetDoc) (h : mapGet cm b.categoryId = none) :
    (evalBudget sp cm b).isSome = (evalBudget sp cm2 b).isSome
    ∧ ∀ a, evalBudget sp cm b = some a →
        a.categoryName = "Category " ++ b.categoryId := by
  constructor
  · simp only [evalBudget]
    split_ifs <;> simp
  · intro a ha
    simp only [evalBudget] at ha
    split_ifs at ha
    cases ha
    simp [jsOrString, h]

/-- Closed instance of `budgetAlerts_deleted_category` discharging its
hypothesis with an empty category list. -/
theorem budgetAlerts_deleted_category_witness :
    mapGet ([] : JsMap String) "c9" = none ∧
    ((evalBudget [("c9", (200 : ℚ))] [] ⟨"c9", 100, 80⟩).isSome
        = (evalBudget [("c9", (200 : ℚ))] [("c9", "Rent")] ⟨"c9", 100, 80⟩).isSome
      ∧ ∀ a, evalBudget [("c9", (200 : ℚ))] [] ⟨"c9", 100, 80⟩ = some a →
          a.categoryName = "Category " ++ "c9") :=
  ⟨rfl, budgetAlerts_deleted_category [("c9", 200)] [] [("c9", "Rent")]
    ⟨"c9", 100, 80⟩ rfl⟩

/-- One segment of an Express route pattern: a literal or a `:name`
parameter (which matches any single segment). -/
inductive Seg where
  | lit (s : String)
  | param (s : String)
deriving DecidableEq

/-- Whether one pattern segment matches one path segment. -/
def segMatches : Seg → String → Bool
  | .lit s, x => s == x
  | .param _, _ => true

/-- Whether an Express route pattern matches a concrete path, segment by
segment. -/
def routeMatches (ps : List Seg) (path : List String) : Bool :=
  ps.length == path.length && (List.zip ps path).all fun pr => segMatches pr.1 pr.2

/-- Express dispatch: the first registered route whose pattern matches
the path receives the request. -/
def firstMatch (routes : List (String × List Seg)) (path : List String) :
    Option String :=
  (routes.find? fun r => routeMatches r.2 path).map Prod.fst

/-- The GET routes of mongo-routes.ts in their registration order
(lines 78-890).  `GET /api/budgets/:id` (line 443) is registered before
`GET /api/budgets/spending` (line 518) and `GET /api/budgets/alerts`
(line 550). -/
def mongoGetRoutes : List (String × List Seg) :=
  [("GET /api/categories", [.lit "api", .lit "categories"]),
   ("GET /api/categories/:id", [.lit "api", .lit "categories", .param "id"]),
   ("GET /api/accounts", [.lit "api", .lit "accounts"]),
   ("GET /api/accounts/:id", [.lit "api", .lit "accounts", .param "id"]),
   ("GET /api/transactions", [.lit "api", .lit "transactions"]),
   ("GET /api/transactions/by-date", [.lit "api", .lit "transactions", .lit "by-date"]),
   ("GET /api/transactions/:id", [.lit "api", .lit "transactions", .param "id"]),
   ("GET /api/budgets", [.lit "api", .lit "budgets"]),
   ("GET /api/budgets/:id", [.lit "api", .lit "budgets", .param "id"]),
   ("GET /api/budgets/spending", [.lit "api", .lit "budgets", .lit "spending"]),
   ("GET /api/budgets/alerts", [.lit "api", .lit "budgets", .lit "alerts"]),
   ("GET /api/bills", [.lit "api", .lit "bills"]),
   ("GET /api/bills/upcoming", [.lit "api", .lit "bills", .lit "upcoming"]),
   ("GET /api/bills/:id", [.lit "api", .lit "bills", .param "id"]),
   ("GET /api/goals", [.lit "api", .lit "goals"]),
   ("GET /api/goals/:id", [.lit "api", .lit "goals", .param "id"]),
   ("GET /api/insights", [.lit "api", .lit "insights"]),
   ("GET /api/insights/unread", [.lit "api", .lit "insights", .lit "unread"]),
   ("GET /api/analytics/monthly-summary", [.lit "api", .lit "analytics", .lit "monthly-summary"]),
   ("GET /api/analytics/yearly-summary", [.lit "api", .lit "analytics", .lit "yearly-summary"])]

/-- C4 fails on the code: requests for /api/budgets/spending and
/api/budgets/alerts are dispatched to the earlier-registered
`GET /api/budgets/:id` handler (with `id` bound to "spending" or
"alerts"), so the aggregator and evaluator handlers are unreachable. -/
theorem budgetsSpendingAlerts_intercepted :
    firstMatch mongoGetRoutes ["api", "budgets", "spending"]
        = some "GET /api/budgets/:id"
    ∧ firstMatch mongoGetRoutes ["api", "budgets", "alerts"]
        = some "GET /api/budgets/:id"
    ∧ firstMatch mongoGetRoutes ["api", "budgets", "spending"]
        ≠ some "GET /api/budgets/spending"
    ∧ firstMatch mongoGetRoutes ["api", "budgets", "alerts"]
        ≠ some "GET /api/budgets/alerts" := by
  refine ⟨by decide, by decide, by decide, by decide⟩

/-- A bill document as the reminder code reads it: due instant (measured
in days on a linear time scale), reminder lead-time in days, paid flag. -/
structure BillDoc where
  dueDate : ℚ
  reminderDays : ℤ
  isPaid : Bool
deriving DecidableEq

/-- Truncation toward zero, as date-fns `differenceInDays` truncates a
fractional day count. -/
def truncTowardZero (q : ℚ) : ℤ := if q < 0 then ⌈q⌉ else ⌊q⌋

/-- date-fns `differenceInDays(laterDate, earlierDate)`: signed whole-day
difference, truncated toward zero. -/
def differenceInDays (laterDate earlierDate : ℚ) : ℤ :=
  truncTowardZero (laterDate - earlierDate)

/-- `DatabaseStorage.getUpcomingBills` (email-reminders.ts concatenation,
storage part lines 648-665): unpaid bills whose due date lies between
today and today plus the lookahead, inclusive.  The source additionally
orders the result by due date; ordering is irrelevant to every property
proved here and the input order is kept. -/
def getUpcomingBills (bills : List BillDoc) (today : ℚ) (days : ℚ) :
    List BillDoc :=
  bills.filter fun b =>
    !b.isPaid && decide (today ≤ b.dueDate) && decide (b.dueDate ≤ today + days)

/-- `checkBillReminders` (email-reminders.ts lines 108-153): with a known
user owning an email address, fetch the upcoming bills for the next 30
days and send a reminder for each bill with
`daysToDue <= reminderDays && daysToDue >= 0`.  The result is the list
of bills for which a reminder email is sent. -/
def checkBillReminders (userEmail : Option String) (bills : List BillDoc)
    (today : ℚ) : List BillDoc :=
  match userEmail with
  | none => []
  | some _ =>
    (getUpcomingBills bills today 30).filter fun b =>
      decide (differenceInDays b.dueDate today ≤ b.reminderDays)
        && decide (0 ≤ differenceInDays b.dueDate today)

/-- C7: among the unpaid upcoming bills the matcher considers, a reminder
is sent exactly when `0 <= daysToDue <= reminderDays`; concretely (today
at instant 0, lead-time 3 days) a bill due in exactly 3 days fires, one
due in 4 days does not, and an overdue bill with `daysToDue = -1` does
not. -/
theorem billReminder_window (e : String) (bills : List BillDoc) (today : ℚ)
    (b : BillDoc) :
    (b ∈ checkBillReminders (some e) bills today ↔
      b ∈ getUpcomingBills bills today 30
        ∧ 0 ≤ differenceInDays b.dueDate today
        ∧ differenceInDays b.dueDate today ≤ b.reminderDays)
    ∧ checkBillReminders (some "user@example.com")
        [⟨3, 3, false⟩, ⟨4, 3, false⟩] 0 = [⟨3, 3, false⟩]
    ∧ checkBillReminders (some "user@example.com") [⟨-1, 3, false⟩] 0 = [] := by
  refine ⟨?_, ?_, ?_⟩
  · simp only [checkBillReminders, List.mem_filter, Bool.and_eq_true,
      decide_eq_true_eq]
    tauto
  · norm_num [checkBillReminders, getUpcomingBills, differenceInDays,
      truncTowardZero, List.filter_cons]
  · norm_num [checkBillReminders, getUpcomingBills, differenceInDays,
      truncTowardZero, List.filter_cons]

/-- A create/update payload for a transaction as mongoose validates it
against `TransactionSchema` (models.ts lines 130-143): `description`,
`date`, `amount` and `userId` are required; `categoryId` defaults to
null and `isIncome` to false.  No constraint relates to the amount's
sign. -/
structure TxnInput where
  description : Option String
  date : Option ℚ
  amount : Option ℚ
  userId : Option String
  categoryId : Option String
  isIncome : Option Bool
deriving DecidableEq

/-- Mongoose validation of `TransactionSchema`: presence of the required
fields only. -/
def transactionSchemaAccepts (d : TxnInput) : Bool :=
  d.description.isSome && d.date.isSome && d.amount.isSome && d.userId.isSome

/-- The document stored by a successful create (POST /api/transactions,
mongo-routes.ts lines 251-273, spreads the request body unchanged into
`createTransaction`): schema defaults applied, amount stored as given. -/
def storedTransaction (d : TxnInput) : Option Txn :=
  if transactionSchemaAccepts d then
    match d.amount with
    | some q => some ⟨q, d.isIncome.getD false, d.categoryId⟩
    | none => none
  else none

/-- C9 as stated is false on the code: a POST body with amount -50
passes schema validation and is stored with the negative amount. -/
theorem transaction_negative_amount_cex :
    storedTransaction
        ⟨some "refund entered as expense", some 0, some (-50), some "u1",
          none, some false⟩
      = some ⟨-50, false, none⟩
    ∧ ((-50 : ℚ) < 0) := by
  exact ⟨rfl, by norm_num⟩

/-- C9 (amended): neither `TransactionSchema` nor the create handler
constrains the amount's sign — acceptance is independent of the amount's
value and the stored amount is exactly the submitted one; the `isIncome`
flag alone carries direction. -/
theorem transaction_amount_unconstrained (d : TxnInput) (q1 q2 : ℚ) :
    (transactionSchemaAccepts { d with amount := some q1 }
      = transactionSchemaAccepts { d with amount := some q2 })
    ∧ (∀ t, storedTransaction d = some t → d.amount = some t.amount) := by
  constructor
  · simp [transactionSchemaAccepts]
  · intro t ht
    simp only [storedTransaction] at ht
    split_ifs at ht
    cases ha : d.amount with
    | none => rw [ha] at ht; cases ht
    | some q => rw [ha] at ht; injection ht with h; rw [← h]

/-- Closed instance of `transaction_amount_unconstrained` discharging its
hypothesis at the negative-amount payload. -/
theorem transaction_amount_unconstrained_witness :
    (⟨some "refund entered as expense", some 0, some (-50), some "u1",
        none, some false⟩ : TxnInput).amount = some (-50 : ℚ) :=
  (transaction_amount_unconstrained
    ⟨some "refund entered as expense", some 0, some (-50), some "u1",
      none, some false⟩ 1 2).2 ⟨-50, false, none⟩ rfl

/-- Alert construction of `checkBudgetAlerts` (email-reminders.ts
concatenation, budget-alerts part lines 244-271): push an exceeded alert
when spend passes the amount, else an approaching alert when the rounded
percentage reaches the threshold, else nothing. -/
def budgetAlertsFor (categoryId categoryName : String) (budget : BudgetDoc)
    (spent : ℚ) : List AlertRec :=
  let percentSpent :=
    jsRound (jsMul (jsDiv (.num spent) (.num budget.amount)) (.num 100))
  if budget.amount < spent then
    [⟨categoryId, categoryName, budget.amount, spent, percentSpent, true⟩]
  else if jsGeQ percentSpent budget.alertThreshold then
    [⟨categoryId, categoryName, budget.amount, spent, percentSpent, false⟩]
  else []

/-- `checkBudgetAlerts` (email-reminders.ts budget-alerts part lines
188-278): the incremental evaluator run after a transaction is created.
The three storage reads are passed as `Except` results; the source wraps
everything in try/catch and returns null on any thrown error, which the
error branches render.  Returns null for income or uncategorized
transactions, for a missing budget, and when no alert fires; otherwise
the non-empty alert list for the transaction's category. -/
def checkBudgetAlerts (budgetsR : Except String (List BudgetDoc))
    (txnsR : Except String (List Txn))
    (catsR : Except String (List CategoryDoc))
    (txn : Txn) : Option (List AlertRec) :=
  if txn.isIncome then none
  else
    match txn.categoryId with
    | none => none
    | some categoryId =>
      match budgetsR, txnsR, catsR with
      | .ok budgets, .ok transactions, .ok categories =>
        match budgets.find? (fun b => b.categoryId == categoryId) with
        | none => none
        | some budget =>
          let categoryName :=
            match categories.find? (fun c => c.id == categoryId) with
            | some c => c.name
            | none => "Category " ++ categoryId
          let spent := (mapGet (categorySpending transactions) categoryId).getD 0
          let alerts := budgetAlertsFor categoryId categoryName budget spent
          if 0 < alerts.length then some alerts else none
      | _, _, _ => none

theorem budgetAlertsFor_shape (categoryId categoryName : String)
    (budget : BudgetDoc) (spent : ℚ) :
    budgetAlertsFor categoryId categoryName budget spent = []
    ∨ ∃ a, budgetAlertsFor categoryId categoryName budget spent = [a]
        ∧ a.categoryId = categoryId := by
  by_cases h1 : budget.amount < spent
  · exact Or.inr ⟨⟨categoryId, categoryName, budget.amount, spent,
      jsRound (jsMul (jsDiv (.num spent) (.num budget.amount)) (.num 100)), true⟩,
      by simp [budgetAlertsFor, h1], rfl⟩
  · by_cases h2 : jsGeQ (jsRound (jsMul (jsDiv (.num spent) (.num budget.amount))
        (.num 100))) budget.alertThreshold = true
    · exact Or.inr ⟨⟨categoryId, categoryName, budget.amount, spent,
        jsRound (jsMul (jsDiv (.num spent) (.num budget.amount)) (.num 100)), false⟩,
        by simp [budgetAlertsFor, h1, h2], rfl⟩
    · exact Or.inl (by simp [budgetAlertsFor, h1, h2])

theorem checkBudgetAlerts_shape (bR : Except String (List BudgetDoc))
    (tR : Except String (List Txn)) (cR : Except String (List CategoryDoc))
    (txn : Txn) :
    checkBudgetAlerts bR tR cR txn = none
    ∨ ∃ c a, txn.categoryId = some c ∧ a.categoryId = c
        ∧ checkBudgetAlerts bR tR cR txn = some [a] := by
  by_cases hInc : txn.isIncome
  · left; simp [checkBudgetAlerts, hInc]
  · cases hcid : txn.categoryId with
    | none => left; simp [checkBudgetAlerts, hInc, hcid]
    | some c =>
      cases bR with
      | error msg => left; simp [checkBudgetAlerts, hInc, hcid]
      | ok budgets =>
        cases tR with
        | error msg => left; simp [checkBudgetAlerts, hInc, hcid]
        | ok transactions =>
          cases cR with
          | error msg => left; simp [checkBudgetAlerts, hInc, hcid]
          | ok categories =>
            cases hfb : budgets.find? (fun b => b.categoryId == c) with
            | none => left; simp [checkBudgetAlerts, hInc, hcid, hfb]
            | some budget =>
              rcases budgetAlertsFor_shape c
                  (match categories.find? (fun cc => cc.id == c) with
                    | some cc => cc.name
                    | none => "Category " ++ c) budget
                  ((mapGet (categorySpending transactions) c).getD 0)
                with hsh | ⟨a, hsh, hac⟩
              · left
                simp [checkBudgetAlerts, hInc, hcid, hfb, hsh]
              · right
                exact ⟨c, a, rfl, hac,
                  by simp [checkBudgetAlerts, hInc, hcid, hfb, hsh]⟩

/-- C10: `checkBudgetAlerts` is total (it never throws: every thrown
storage error is caught and turned into null); it returns null — never an
empty list — for income transactions, uncategorized transactions,
storage errors, a missing budget, and when neither alert condition
holds; any non-null result is a non-empty list of alerts for exactly the
input transaction's category. -/
theorem checkBudgetAlerts_contract (bR : Except String (List BudgetDoc))
    (tR : Except String (List Txn)) (cR : Except String (List CategoryDoc))
    (txn : Txn) :
    (checkBudgetAlerts bR tR cR txn ≠ some [])
    ∧ (∀ l, checkBudgetAlerts bR tR cR txn = some l →
        l ≠ [] ∧ ∀ a ∈ l, txn.categoryId = some a.categoryId)
    ∧ (txn.isIncome = true → checkBudgetAlerts bR tR cR txn = none)
    ∧ (txn.categoryId = none → checkBudgetAlerts bR tR cR txn = none)
    ∧ (∀ msg, bR = .error msg → checkBudgetAlerts bR tR cR txn = none)
    ∧ (∀ msg, tR = .error msg → checkBudgetAlerts bR tR cR txn = none)
    ∧ (∀ msg, cR = .error msg → checkBudgetAlerts bR tR cR txn = none)
    ∧ (∀ budgets c, bR = .ok budgets → txn.categoryId = some c →
        budgets.find? (fun b => b.categoryId == c) = none →
        checkBudgetAlerts bR tR cR txn = none)
    ∧ (∀ budgets transactions c budget,
        bR = .ok budgets → tR = .ok transactions →
        txn.categoryId = some c →
        budgets.find? (fun b => b.categoryId == c) = some budget →
        ¬ budget.amount < (mapGet (categorySpending transactions) c).getD 0 →
        jsGeQ (jsRound (jsMul (jsDiv
            (.num ((mapGet (categorySpending transactions) c).getD 0))
            (.num budget.amount)) (.num 100))) budget.alertThreshold = false →
        checkBudgetAlerts bR tR cR txn = none) := by
  refine ⟨?_, ?_, ?_, ?_, ?_, ?_, ?_, ?_, ?_⟩
  · rcases checkBudgetAlerts_shape bR tR cR txn with h | ⟨c, a, hc, hac, h⟩ <;>
      rw [h] <;> simp
  · intro l hl
    rcases checkBudgetAlerts_shape bR tR cR txn with h | ⟨c, a, hc, hac, h⟩
    · rw [h] at hl; cases hl
    · rw [h] at hl
      injection hl with hl
      subst hl
      refine ⟨by simp, ?_⟩
      intro x hx
      rw [List.mem_singleton] at hx
      subst hx
      rw [hc, hac]
  · intro h; simp [checkBudgetAlerts, h]
  · intro h
    by_cases hInc : txn.isIncome <;> simp [checkBudgetAlerts, h, hInc]
  · intro msg h
    subst h
    by_cases hInc : txn.isIncome <;> cases hcid : txn.categoryId <;>
      simp [checkBudgetAlerts, hInc, hcid]
  · intro msg h
    subst h
    by_cases hInc : txn.isIncome <;> cases hcid : txn.categoryId <;>
      cases bR <;> simp [checkBudgetAlerts, hInc, hcid]
  · intro msg h
    subst h
    by_cases hInc : txn.isIncome <;> cases hcid : txn.categoryId <;>
      cases bR <;> cases tR <;> simp [checkBudgetAlerts, hInc, hcid]
  · intro budgets c hb hcid hfind
    subst hb
    by_cases hInc : txn.isIncome <;> cases tR <;> cases cR <;>
      simp [checkBudgetAlerts, hInc, hcid, hfind]
  · intro budgets transactions c budget hb ht hcid hfind hex happ
    subst hb; subst ht
    by_cases hInc : txn.isIncome <;> cases cR <;>
      simp [checkBudgetAlerts, hInc, hcid, hfind, budgetAlertsFor, hex, happ]

/-- Closed instance of `checkBudgetAlerts_contract`: the income-case
implication applied at a concrete income transaction. -/
theorem checkBudgetAlerts_contract_witness :
    checkBudgetAlerts (.ok []) (.ok []) (.ok []) ⟨5, true, some "c1"⟩ = none :=
  (checkBudgetAlerts_contract (.ok []) (.ok []) (.ok [])
    ⟨5, true, some "c1"⟩).2.2.1 rfl

/-- The authenticated user as the POST /api/transactions handler sees it:
only the email address matters to the notification step. -/
structure UserDoc where
  email : Option String
deriving DecidableEq

/-- The observable response of the POST /api/transactions handler:
status code, the transaction included in the body, the alerts included
in the body. -/
structure HttpResponse where
  status : ℕ
  txnBody : Option Txn
  alertsBody : Option (List AlertRec)
deriving DecidableEq

/-- The POST /api/transactions handler (mongo-routes.ts lines 251-309).
`createR` is the persistence outcome, `fetchR` the stray
`getTransactionsByUserId` read before the inner try, `alertR` the
outcome of `checkBudgetAlerts`, `emailR` the outcome of the alert
emails.  A throw inside the inner try (alert check or email send) is
caught and the handler still answers 201 with the transaction; a throw
outside it goes to `next(error)` (modelled as status 500). -/
def postTransactionsRoute (user : Option UserDoc)
    (createR : Except String Txn)
    (fetchR : Except String (List Txn))
    (alertR : Except String (Option (List AlertRec)))
    (emailR : Except String Bool) : HttpResponse :=
  match user with
  | none => ⟨401, none, none⟩
  | some u =>
    match createR with
    | .error _ => ⟨500, none, none⟩
    | .ok txn =>
      if txn.categoryId.isSome && !txn.isIncome then
        match fetchR with
        | .error _ => ⟨500, none, none⟩
        | .ok _ =>
          match alertR with
          | .error _ => ⟨201, some txn, none⟩
          | .ok none => ⟨201, some txn, none⟩
          | .ok (some alerts) =>
            if 0 < alerts.length then
              match (match u.email with
                     | some _ => emailR
                     | none => Except.ok true) with
              | .error _ => ⟨201, some txn, none⟩
              | .ok _ => ⟨201, some txn, some alerts⟩
            else ⟨201, some txn, none⟩
      else ⟨201, some txn, none⟩

/-- C8: once the transaction is persisted (and the stray transaction
fetch succeeds), the response is 201 and contains the created
transaction for every outcome of the budget-alert check and of the
notification email — failure of either never fails the creation call. -/
theorem postTransactions_notification_isolated (u : UserDoc) (txn : Txn)
    (fetched : List Txn) (alertR : Except String (Option (List AlertRec)))
    (emailR : Except String Bool) :
    (postTransactionsRoute (some u) (.ok txn) (.ok fetched) alertR emailR).status
        = 201
    ∧ (postTransactionsRoute (some u) (.ok txn) (.ok fetched) alertR emailR).txnBody
        = some txn := by
  by_cases h : txn.categoryId.isSome && !txn.isIncome
  · rcases alertR with msg | al
    · simp [postTransactionsRoute, h]
    · rcases al with _ | l
      · simp [postTransactionsRoute, h]
      · by_cases hl : 0 < l.length
        · rcases he : u.email with _ | e
          · simp [postTransactionsRoute, h, hl, he]
          · rcases emailR with msg | ok <;>
              simp [postTransactionsRoute, h, hl, he]
        · simp [postTransactionsRoute, h, hl]
  · simp [postTransactionsRoute, h]

end FinanceTracker
